import Mathlib

/-!
Shallow embedding of the batched quote-acquisition pipeline of
`src/crypto_analysis.py` (repository 00Clarity/FinBot1), covering:

* `CryptoCache` (`is_valid`, `get`, `set`, `_load_cache`)    — lines 17-70,
* the momentum score computed inline in `process_all_tickers` — lines 158-166,
* the per-symbol quote extraction                             — lines 147-176,
* the batch/retry orchestration of `process_all_tickers`      — lines 108-189.

Modelling conventions:

* Python floats are modelled as `ℚ`.
* Python `dict`s are modelled as functions into `Option` (absent key = `none`);
  a possibly-absent sub-dict (e.g. `self.cache[data_type]`, whose absence makes
  the lookup raise `KeyError`, caught and turned into `None`) is modelled as
  `Option` of such a function.
* Wall-clock instants (`datetime.now()`) are modelled as integer seconds and
  passed explicitly to each cache operation.
* The remote fetch `get_batch_quotes` (network + its own cache consult) is the
  Fetcher collaborator; the orchestrator model takes it as an oracle
  `fetch : Nat → FetchOutcome` indexed by the running attempt counter
  (`api_calls`), so each attempt may answer differently.
* `await asyncio.sleep d` calls made by the orchestrator are recorded in a
  trace field `sleeps` (in seconds) so the temporal claims are statable.
-/

namespace FinBot

/-- `CACHE_EXPIRY = 3600` seconds (line 14). -/
def CACHE_EXPIRY : Int := 3600

/-- `BATCH_SIZE = 100` (line 15). -/
def BATCH_SIZE : Nat := 100

/-- The in-memory cache dict (lines 17-19): a `timestamp` mapping from key to
stored-at instant, plus one mapping per `data_type`.  A `data_type` key that
was never created is `none` (in Python, indexing it raises `KeyError`, which
`get` catches). -/
structure CryptoCache (V : Type) where
  timestamp : String → Option Int
  data : String → Option (String → Option V)

/-- The `{'quotes': \x7b\x7d, 'timestamp': \x7b\x7d}` fallback of `_load_cache`
(line 33), with every mapping empty.  Note the `quotes` table: the fallback
dict has a `'quotes'` key bound to an empty dict, which is observationally the
same as an absent table (both make every `get` miss); we model it as absent so
a cold cache is literally the all-`none` record. -/
def emptyCache {V : Type} : CryptoCache V :=
  { timestamp := fun _ => none, data := fun _ => none }

/-- What `_load_cache` (lines 21-33) found on disk: the file may be absent
(`os.path.exists` false), loading may raise (corrupt JSON, I/O error,
non-dict document — all caught by the `except`), or it parses to a dict with
an optional `timestamp` table and arbitrary per-`data_type` tables. -/
inductive LoadOutcome (V : Type) where
  | absent
  | failure
  | parsed (timestamp : Option (String → Option Int))
           (tables : String → Option (String → Option V))

/-- `CryptoCache._load_cache` (lines 21-33): on a missing file or any
exception, fall back to the empty cache; on a parsed document, default the
`quotes` and `timestamp` tables to empty dicts (lines 26-29). -/
def load_cache {V : Type} : LoadOutcome V → CryptoCache V
  | .absent => emptyCache
  | .failure => emptyCache
  | .parsed ts tables =>
      { timestamp := ts.getD (fun _ => none)
        data := fun t =>
          if t = "quotes" then some ((tables "quotes").getD (fun _ => none))
          else tables t }

/-- `CryptoCache.is_valid` (lines 42-50): look the key up in the `timestamp`
mapping (missing → `False`), else compare the age against `CACHE_EXPIRY`
strictly.  The `data_type` argument is accepted and ignored, exactly as in the
source. -/
def CryptoCache.is_valid {V : Type} (c : CryptoCache V) (now : Int)
    (key data_type : String) : Bool :=
  match c.timestamp key with
  | none => false
  | some ts => decide (now - ts < CACHE_EXPIRY)

/-- `CryptoCache.get` (lines 52-58): return `self.cache[data_type].get(key)`
when `is_valid`, else `None`; a `KeyError` on a missing `data_type` table is
caught and also yields `None`. -/
def CryptoCache.get {V : Type} (c : CryptoCache V) (now : Int)
    (key data_type : String) : Option V :=
  if c.is_valid now key data_type then
    match c.data data_type with
    | some m => m key
    | none => none
  else none

/-- `CryptoCache.set` (lines 60-70): create the `data_type` table if missing,
store `value` under `key` in it, and stamp `timestamp[key]` with the current
instant.  (The synchronous `save_cache` call only touches durable storage and
is outside this model; its failure is caught and non-fatal.) -/
def CryptoCache.set {V : Type} (c : CryptoCache V) (now : Int)
    (key data_type : String) (value : V) : CryptoCache V :=
  { timestamp := fun k => if k = key then some now else c.timestamp k
    data := fun t =>
      if t = data_type then
        some (fun k => if k = key then some value else
          ((c.data t).getD (fun _ => none)) k)
      else c.data t }

/-- The `quote` dict extracted for one token entry,
`token_data[0].get('quote', \x7b\x7d).get('USD', \x7b\x7d)` (line 151): each
field may be absent (a missing `quote`/`USD` level gives the all-absent
record). -/
structure USDQuote where
  price : Option ℚ
  percent_change_24h : Option ℚ
  percent_change_7d : Option ℚ
  volume_24h : Option ℚ
  market_cap : Option ℚ

/-- `quote_data['data'].get(symbol, [])` for one symbol: either a list of
token entries (each carrying its USD quote), or a malformed value on which the
per-symbol extraction raises (caught at lines 174-176). -/
inductive TokenData where
  | entries (l : List USDQuote)
  | malformed

/-- The `data` mapping of a successful payload: symbol → token data (an absent
symbol defaults to `[]`, modelled as `none`). -/
def QuotePayload : Type := String → Option TokenData

/-- Outcome of one `get_batch_quotes` attempt as observed by the retry loop
(line 135): `failure` covers `None`, a falsy payload and a payload without a
`'data'` key; `success d` is a payload whose `'data'` mapping is `d`. -/
inductive FetchOutcome where
  | failure
  | success (d : QuotePayload)

/-- The volume/market-cap term of line 163:
`volume_24h / market_cap * 100 if market_cap > 0 else 0`. -/
def volume_ratio (volume_24h market_cap : ℚ) : ℚ :=
  if market_cap > 0 then volume_24h / market_cap * 100 else 0

/-- The momentum score of lines 160-164:
`0.5 * percent_change_24h + 0.3 * percent_change_7d + 0.2 * volume_ratio`. -/
def momentum_score (percent_change_24h percent_change_7d
    volume_24h market_cap : ℚ) : ℚ :=
  0.5 * percent_change_24h + 0.3 * percent_change_7d +
    0.2 * volume_ratio volume_24h market_cap

/-- Per-symbol resolution against a successful payload (lines 148-176):
returns `some (momentum_score, price)` exactly when the symbol has a nonempty
entry list whose head has a truthy positive price; `none` means the symbol is
recorded as failed (missing entry, empty list, absent or non-positive price,
or a malformed value that makes extraction raise).  `quote.get(field, 0)`
defaults are the `getD 0`. -/
def processSymbol (dm : QuotePayload) (symbol : String) : Option (ℚ × ℚ) :=
  match dm symbol with
  | some (.entries (q :: _)) =>
    match q.price with
    | some price =>
      if price > 0 then
        some (momentum_score (q.percent_change_24h.getD 0)
          (q.percent_change_7d.getD 0) (q.volume_24h.getD 0)
          (q.market_cap.getD 0), price)
      else none
    | none => none
  | _ => none

/-- The mutable run state of `process_all_tickers` (lines 111-119), plus a
trace of the orchestrator's `asyncio.sleep` calls (in seconds) for the
temporal claims.  `results` is the Python dict `results` (assignment
overwrites); `failed_tokens` is the Python list (appended, duplicates kept). -/
structure RunState where
  results : String → Option (ℚ × ℚ)
  failed_tokens : List String
  api_calls : Nat
  sleeps : List ℚ

/-- Initial state: `results = {}`, `failed_tokens = []`, `api_calls = 0`. -/
def initState : RunState :=
  { results := fun _ => none, failed_tokens := [], api_calls := 0, sleeps := [] }

/-- `t.upper()` (line 122): character-wise uppercasing.  (Expressed over the
character list, which is what `String.map Char.toUpper` computes, so that the
definition is kernel-reducible on concrete strings.) -/
def upper (s : String) : String := String.mk (s.data.map Char.toUpper)

/-- The retry loop `for retry in range(3)` (lines 131-140), unrolled: each
iteration fetches (the oracle is indexed by the attempt counter, which
increments on every attempt), breaks on a usable payload, and otherwise, when
`retry < 2`, sleeps `2 ** retry` seconds.  Returns the usable payload (if
any), the number of attempts made, and the backoff sleeps performed. -/
def fetchWithRetries (fetch : Nat → FetchOutcome) (calls : Nat) :
    Option QuotePayload × Nat × List ℚ :=
  match fetch calls with
  | .success d => (some d, 1, [])
  | .failure =>
    match fetch (calls + 1) with
    | .success d => (some d, 2, [1])
    | .failure =>
      match fetch (calls + 2) with
      | .success d => (some d, 3, [1, 2])
      | .failure => (none, 3, [1, 2])

/-- The per-symbol loop `for symbol in batch` (lines 147-176): resolve each
symbol against the payload; on success assign `results[symbol]`, on failure
append to `failed_tokens`. -/
def processSymbols (dm : QuotePayload) : List String → RunState → RunState
  | [], st => st
  | symbol :: rest, st =>
      processSymbols dm rest
        (match processSymbol dm symbol with
         | some v =>
             { st with results := fun s => if s = symbol then some v
                 else st.results s }
         | none =>
             { st with failed_tokens := st.failed_tokens ++ [symbol] })

/-- One iteration of the batch loop (lines 126-178): run the retry loop,
add its attempts to `api_calls` and its backoff sleeps to the trace; if no
usable payload was obtained, `continue` (note: nothing is recorded for the
batch's symbols, and the inter-batch pause is skipped); otherwise process each
symbol and then `await asyncio.sleep(0.1)` (line 178). -/
def runBatch (fetch : Nat → FetchOutcome) (st : RunState)
    (batch : List String) : RunState :=
  let r := fetchWithRetries fetch st.api_calls
  let st1 : RunState :=
    { st with api_calls := st.api_calls + r.2.1, sleeps := st.sleeps ++ r.2.2 }
  match r.1 with
  | none => st1
  | some dm =>
      let st2 := processSymbols dm batch st1
      { st2 with sleeps := st2.sleeps ++ [(1 : ℚ)/10] }

/-- Structural helper for `batches`: the fuel is an upper bound on the list
length, consumed one unit per chunk (each chunk removes at least one symbol),
so the recursion is structural and kernel-reducible.  `batches` below proves
the fuel is never exhausted. -/
def batchesFuel : Nat → List String → List (List String)
  | _, [] => []
  | 0, _ :: _ => []
  | fuel + 1, x :: rest =>
      (x :: rest).take BATCH_SIZE :: batchesFuel fuel ((x :: rest).drop BATCH_SIZE)

/-- `range(0, len(tickers), BATCH_SIZE)` slicing (lines 126-127): consecutive
chunks of at most `BATCH_SIZE` symbols, preserving order. -/
def batches (l : List String) : List (List String) :=
  batchesFuel l.length l

/-- The batch loop folded over all batches. -/
def processAllCore (fetch : Nat → FetchOutcome) :
    List (List String) → RunState → RunState
  | [], st => st
  | b :: bs, st => processAllCore fetch bs (runBatch fetch st b)

/-- Python truthiness of the credential check `if not api_key` (line 114):
`os.getenv` returning `None` or the empty string are both falsy. -/
def credential_missing : Option String → Bool
  | none => true
  | some k => decide (k = "")

/-- `process_all_tickers` (lines 108-189): raise `ValueError` when no usable
credential is configured (line 114-115, before any network activity);
otherwise uppercase-normalize the tickers (line 122), split them into batches
and run the batch loop.  Wall-clock duration is not modelled. -/
def process_all_tickers (apiKey : Option String) (fetch : Nat → FetchOutcome)
    (tickers : List String) : Except String RunState :=
  if credential_missing apiKey then
    .error "No CMC_API_KEY found in environment variables"
  else
    .ok (processAllCore fetch (batches (tickers.map upper)) initState)

/-- A fetcher whose every attempt fails (used for concrete runs). -/
def fetchAlwaysFail : Nat → FetchOutcome := fun _ => .failure

/-- A one-symbol payload for `"AAA"`: price 2, 24h change 10, 7d change 5,
volume 1000000, market cap 10000000. -/
def payloadAAA : QuotePayload := fun s =>
  if s = "AAA" then
    some (.entries [⟨some 2, some 10, some 5, some 1000000, some 10000000⟩])
  else none

/-- A fetcher that fails its first two attempts and succeeds on the third. -/
def fetchThirdTry : Nat → FetchOutcome := fun n =>
  if n < 2 then .failure else .success payloadAAA

/-- A fetcher that always succeeds with `payloadAAA`. -/
def fetchAlwaysOk : Nat → FetchOutcome := fun _ => .success payloadAAA

/-! ### Supporting lemmas about the per-symbol loop -/

theorem ps_failed (dm : QuotePayload) (batch : List String) (st : RunState) :
    (processSymbols dm batch st).failed_tokens
      = st.failed_tokens ++ batch.filter (fun s => (processSymbol dm s).isNone) := by
  induction batch generalizing st with
  | nil => simp [processSymbols]
  | cons x rest ih =>
    simp only [processSymbols]
    cases h : processSymbol dm x with
    | some v => simp [ih, h, List.filter_cons]
    | none => simp [ih, h, List.filter_cons]

theorem ps_api_calls (dm : QuotePayload) (batch : List String) (st : RunState) :
    (processSymbols dm batch st).api_calls = st.api_calls := by
  induction batch generalizing st with
  | nil => rfl
  | cons x rest ih =>
    simp only [processSymbols]
    cases h : processSymbol dm x <;> exact ih _

theorem ps_sleeps (dm : QuotePayload) (batch : List String) (st : RunState) :
    (processSymbols dm batch st).sleeps = st.sleeps := by
  induction batch generalizing st with
  | nil => rfl
  | cons x rest ih =>
    simp only [processSymbols]
    cases h : processSymbol dm x <;> exact ih _

theorem ps_results_not_mem (dm : QuotePayload) (batch : List String)
    (st : RunState) (s : String) (hs : s ∉ batch) :
    (processSymbols dm batch st).results s = st.results s := by
  induction batch generalizing st with
  | nil => rfl
  | cons x rest ih =>
    simp only [List.mem_cons, not_or] at hs
    obtain ⟨hx, hrest⟩ := hs
    simp only [processSymbols]
    cases h : processSymbol dm x with
    | some v => rw [ih _ hrest]; simp [hx]
    | none => rw [ih _ hrest]

theorem ps_results_some (dm : QuotePayload) (batch : List String)
    (st : RunState) (s : String) (v : ℚ × ℚ) (hmem : s ∈ batch)
    (h : processSymbol dm s = some v) :
    (processSymbols dm batch st).results s = some v := by
  induction batch generalizing st with
  | nil => cases hmem
  | cons x rest ih =>
    simp only [processSymbols]
    rcases List.mem_cons.mp hmem with rfl | hrest
    · rw [h]
      by_cases hr : s ∈ rest
      · exact ih _ hr
      · rw [ps_results_not_mem dm rest _ s hr]; simp
    · cases hx : processSymbol dm x with
      | some w => exact ih _ hrest
      | none => exact ih _ hrest

theorem ps_results_none (dm : QuotePayload) (batch : List String)
    (st : RunState) (s : String) (h : processSymbol dm s = none) :
    (processSymbols dm batch st).results s = st.results s := by
  induction batch generalizing st with
  | nil => rfl
  | cons x rest ih =>
    simp only [processSymbols]
    cases hx : processSymbol dm x with
    | some w =>
      rw [ih]
      by_cases hsx : s = x
      · subst hsx; rw [hx] at h; cases h
      · simp [hsx]
    | none => exact ih _

/-! ### Supporting lemmas about the retry loop -/

theorem fwr_none (fetch : Nat → FetchOutcome) (c : Nat)
    (h : (fetchWithRetries fetch c).1 = none) :
    fetchWithRetries fetch c = (none, 3, [1, 2]) := by
  unfold fetchWithRetries at h ⊢
  cases h1 : fetch c <;> cases h2 : fetch (c + 1) <;> cases h3 : fetch (c + 2) <;>
    simp_all

theorem fwr_attempts_le (fetch : Nat → FetchOutcome) (c : Nat) :
    (fetchWithRetries fetch c).2.1 ≤ 3 := by
  unfold fetchWithRetries
  cases fetch c <;> cases fetch (c + 1) <;> cases fetch (c + 2) <;> simp

theorem fwr_sleeps_cases (fetch : Nat → FetchOutcome) (c : Nat) :
    (fetchWithRetries fetch c).2.2 = [] ∨ (fetchWithRetries fetch c).2.2 = [1]
      ∨ (fetchWithRetries fetch c).2.2 = [1, 2] := by
  unfold fetchWithRetries
  cases fetch c <;> cases fetch (c + 1) <;> cases fetch (c + 2) <;> simp

theorem tenth_not_backoff (fetch : Nat → FetchOutcome) (c : Nat) :
    (1 : ℚ)/10 ∉ (fetchWithRetries fetch c).2.2 := by
  rcases fwr_sleeps_cases fetch c with h | h | h <;> rw [h] <;> norm_num

/-! ### Supporting lemmas about one batch iteration -/

theorem rb_fail (fetch : Nat → FetchOutcome) (st : RunState) (b : List String)
    (h : (fetchWithRetries fetch st.api_calls).1 = none) :
    runBatch fetch st b
      = { st with api_calls := st.api_calls + 3, sleeps := st.sleeps ++ [1, 2] } := by
  simp only [runBatch, fwr_none fetch st.api_calls h]

theorem rb_api_calls (fetch : Nat → FetchOutcome) (st : RunState)
    (b : List String) :
    (runBatch fetch st b).api_calls
      = st.api_calls + (fetchWithRetries fetch st.api_calls).2.1 := by
  simp only [runBatch]
  cases h : (fetchWithRetries fetch st.api_calls).1 with
  | none => rfl
  | some dm => simp [ps_api_calls]

theorem rb_succ_failed (fetch : Nat → FetchOutcome) (st : RunState)
    (b : List String) (dm : QuotePayload)
    (h : (fetchWithRetries fetch st.api_calls).1 = some dm) :
    (runBatch fetch st b).failed_tokens
      = st.failed_tokens ++ b.filter (fun s => (processSymbol dm s).isNone) := by
  simp only [runBatch, h]
  rw [ps_failed]

theorem rb_succ_results_some (fetch : Nat → FetchOutcome) (st : RunState)
    (b : List String) (dm : QuotePayload) (s : String) (v : ℚ × ℚ)
    (h : (fetchWithRetries fetch st.api_calls).1 = some dm)
    (hmem : s ∈ b) (hv : processSymbol dm s = some v) :
    (runBatch fetch st b).results s = some v := by
  simp only [runBatch, h]
  rw [ps_results_some dm b _ s v hmem hv]

theorem rb_succ_results_none (fetch : Nat → FetchOutcome) (st : RunState)
    (b : List String) (dm : QuotePayload) (s : String)
    (h : (fetchWithRetries fetch st.api_calls).1 = some dm)
    (hv : processSymbol dm s = none) :
    (runBatch fetch st b).results s = st.results s := by
  simp only [runBatch, h]
  rw [ps_results_none dm b _ s hv]

theorem rb_sleeps_succ (fetch : Nat → FetchOutcome) (st : RunState)
    (b : List String) (dm : QuotePayload)
    (h : (fetchWithRetries fetch st.api_calls).1 = some dm) :
    (runBatch fetch st b).sleeps
      = st.sleeps ++ (fetchWithRetries fetch st.api_calls).2.2 ++ [(1 : ℚ)/10] := by
  simp only [runBatch, h]
  rw [ps_sleeps]

theorem rb_untouched (fetch : Nat → FetchOutcome) (st : RunState)
    (b : List String) (s : String) (hs : s ∉ b) :
    (runBatch fetch st b).results s = st.results s
      ∧ (s ∈ (runBatch fetch st b).failed_tokens ↔ s ∈ st.failed_tokens) := by
  cases h : (fetchWithRetries fetch st.api_calls).1 with
  | none => rw [rb_fail fetch st b h]; exact ⟨rfl, Iff.rfl⟩
  | some dm =>
    constructor
    · simp only [runBatch, h]
      exact ps_results_not_mem dm b _ s hs
    · rw [rb_succ_failed fetch st b dm h]
      simp only [List.mem_append, List.mem_filter]
      tauto

theorem rb_results_isSome_mono (fetch : Nat → FetchOutcome) (st : RunState)
    (b : List String) (s : String) (h : (st.results s).isSome) :
    ((runBatch fetch st b).results s).isSome := by
  cases hf : (fetchWithRetries fetch st.api_calls).1 with
  | none => rw [rb_fail fetch st b hf]; exact h
  | some dm =>
    cases hv : processSymbol dm s with
    | none => rw [rb_succ_results_none fetch st b dm s hf hv]; exact h
    | some v =>
      by_cases hmem : s ∈ b
      · rw [rb_succ_results_some fetch st b dm s v hf hmem hv]; rfl
      · rw [(rb_untouched fetch st b s hmem).1]; exact h

theorem rb_failed_mono (fetch : Nat → FetchOutcome) (st : RunState)
    (b : List String) (s : String) (h : s ∈ st.failed_tokens) :
    s ∈ (runBatch fetch st b).failed_tokens := by
  cases hf : (fetchWithRetries fetch st.api_calls).1 with
  | none => rw [rb_fail fetch st b hf]; exact h
  | some dm =>
    rw [rb_succ_failed fetch st b dm hf]
    exact List.mem_append_left _ h

/-! ### Supporting lemmas about the batch loop -/

theorem pac_append (fetch : Nat → FetchOutcome) (l1 l2 : List (List String))
    (st : RunState) :
    processAllCore fetch (l1 ++ l2) st
      = processAllCore fetch l2 (processAllCore fetch l1 st) := by
  induction l1 generalizing st with
  | nil => rfl
  | cons b rest ih =>
    simp only [List.cons_append, processAllCore]
    exact ih _

theorem pac_results_isSome_mono (fetch : Nat → FetchOutcome)
    (bs : List (List String)) (st : RunState) (s : String)
    (h : (st.results s).isSome) :
    ((processAllCore fetch bs st).results s).isSome := by
  induction bs generalizing st with
  | nil => exact h
  | cons b rest ih =>
    exact ih _ (rb_results_isSome_mono fetch st b s h)

theorem pac_failed_mono (fetch : Nat → FetchOutcome)
    (bs : List (List String)) (st : RunState) (s : String)
    (h : s ∈ st.failed_tokens) :
    s ∈ (processAllCore fetch bs st).failed_tokens := by
  induction bs generalizing st with
  | nil => exact h
  | cons b rest ih =>
    exact ih _ (rb_failed_mono fetch st b s h)

theorem pac_untouched (fetch : Nat → FetchOutcome)
    (bs : List (List String)) (st : RunState) (s : String)
    (hs : ∀ b ∈ bs, s ∉ b) :
    (processAllCore fetch bs st).results s = st.results s
      ∧ (s ∈ (processAllCore fetch bs st).failed_tokens ↔ s ∈ st.failed_tokens) := by
  induction bs generalizing st with
  | nil => exact ⟨rfl, Iff.rfl⟩
  | cons b rest ih =>
    have hb : s ∉ b := hs b (List.mem_cons_self b rest)
    have hrest : ∀ b' ∈ rest, s ∉ b' := fun b' hb' => hs b' (List.mem_cons_of_mem b hb')
    have h1 := rb_untouched fetch st b s hb
    have h2 := ih (runBatch fetch st b) hrest
    exact ⟨h2.1.trans h1.1, h2.2.trans h1.2⟩

/-! ### Supporting lemmas about batching -/

theorem batchesFuel_congr : ∀ (f1 f2 : Nat) (l : List String),
    l.length ≤ f1 → l.length ≤ f2 → batchesFuel f1 l = batchesFuel f2 l := by
  intro f1
  induction f1 with
  | zero =>
    intro f2 l h1 _
    have : l = [] := List.eq_nil_of_length_eq_zero (Nat.le_zero.mp h1)
    subst this
    cases f2 <;> rfl
  | succ n ih =>
    intro f2 l h1 h2
    cases l with
    | nil => cases f2 <;> rfl
    | cons x rest =>
      cases f2 with
      | zero => simp at h2
      | succ m =>
        simp only [batchesFuel]
        congr 1
        apply ih
        · simp only [List.length_drop, List.length_cons, BATCH_SIZE] at *
          omega
        · simp only [List.length_drop, List.length_cons, BATCH_SIZE] at *
          omega

theorem batches_cons (x : String) (rest : List String) :
    batches (x :: rest)
      = (x :: rest).take BATCH_SIZE :: batches ((x :: rest).drop BATCH_SIZE) := by
  show batchesFuel (rest.length + 1) (x :: rest) = _
  simp only [batchesFuel]
  congr 1
  apply batchesFuel_congr
  · simp only [List.length_drop, List.length_cons, BATCH_SIZE]
    omega
  · exact Nat.le_refl _

theorem batches_flatten (l : List String) : (batches l).flatten = l := by
  have key : ∀ (fuel : Nat) (l : List String), l.length ≤ fuel →
      (batchesFuel fuel l).flatten = l := by
    intro fuel
    induction fuel with
    | zero =>
      intro l h
      have : l = [] := List.eq_nil_of_length_eq_zero (Nat.le_zero.mp h)
      subst this; rfl
    | succ n ih =>
      intro l h
      cases l with
      | nil => rfl
      | cons x rest =>
        simp only [batchesFuel, List.flatten_cons]
        rw [ih]
        · exact List.take_append_drop _ _
        · simp only [List.length_drop, List.length_cons, BATCH_SIZE] at *
          omega
  exact key l.length l (Nat.le_refl _)

theorem mem_of_mem_batches (l : List String) (b : List String) (s : String)
    (hb : b ∈ batches l) (hs : s ∈ b) : s ∈ l := by
  rw [← batches_flatten l]
  exact List.mem_flatten.mpr ⟨b, hb, hs⟩

theorem processSymbol_congr (dm dm' : QuotePayload) (s : String)
    (h : dm' s = dm s) : processSymbol dm' s = processSymbol dm s := by
  unfold processSymbol
  rw [h]

/-! ### Run-level lemmas used by the partition claim -/

theorem pac_success_batch_covered (fetch : Nat → FetchOutcome)
    (pre : List (List String)) (b : List String) (suf : List (List String))
    (st : RunState) (s : String) (hs : s ∈ b)
    (hok : ((fetchWithRetries fetch (processAllCore fetch pre st).api_calls).1).isSome) :
    ((processAllCore fetch (pre ++ b :: suf) st).results s).isSome
      ∨ s ∈ (processAllCore fetch (pre ++ b :: suf) st).failed_tokens := by
  rw [pac_append]
  obtain ⟨dm, hdm⟩ := Option.isSome_iff_exists.mp hok
  simp only [processAllCore]
  cases hv : processSymbol dm s with
  | some v =>
    left
    apply pac_results_isSome_mono
    rw [rb_succ_results_some fetch _ b dm s v hdm hs hv]
    rfl
  | none =>
    right
    apply pac_failed_mono
    rw [rb_succ_failed fetch _ b dm hdm]
    refine List.mem_append_right _ ?_
    exact List.mem_filter.mpr ⟨hs, by simp [hv]⟩

theorem pac_all_fail_neither (fetch : Nat → FetchOutcome) (s : String) :
    ∀ (bs : List (List String)) (st : RunState),
      st.results s = none → s ∉ st.failed_tokens →
      (∀ pre b suf, bs = pre ++ b :: suf → s ∈ b →
        (fetchWithRetries fetch (processAllCore fetch pre st).api_calls).1 = none) →
      (processAllCore fetch bs st).results s = none
        ∧ s ∉ (processAllCore fetch bs st).failed_tokens := by
  intro bs
  induction bs with
  | nil => intro st h1 h2 _; exact ⟨h1, h2⟩
  | cons b rest ih =>
    intro st h1 h2 hfail
    simp only [processAllCore]
    have htrans : ∀ pre b' suf, rest = pre ++ b' :: suf → s ∈ b' →
        (fetchWithRetries fetch
          (processAllCore fetch pre (runBatch fetch st b)).api_calls).1 = none := by
      intro pre b' suf h hb'
      exact hfail (b :: pre) b' suf (by rw [h]; rfl) hb'
    by_cases hmem : s ∈ b
    · have hf : (fetchWithRetries fetch st.api_calls).1 = none :=
        hfail [] b rest rfl hmem
      refine ih _ ?_ ?_ htrans
      · rw [rb_fail fetch st b hf]; exact h1
      · rw [rb_fail fetch st b hf]; exact h2
    · have hu := rb_untouched fetch st b s hmem
      refine ih _ ?_ ?_ htrans
      · rw [hu.1]; exact h1
      · intro hc; exact h2 (hu.2.mp hc)

theorem pac_nodup_not_both (fetch : Nat → FetchOutcome) (l : List String)
    (s : String) (hnd : l.Nodup) :
    ¬ (((processAllCore fetch (batches l) initState).results s).isSome
        ∧ s ∈ (processAllCore fetch (batches l) initState).failed_tokens) := by
  by_cases hmem : s ∈ l
  case neg =>
    have hnb : ∀ b ∈ batches l, s ∉ b :=
      fun b hb hs => hmem (mem_of_mem_batches l b s hb hs)
    have h := pac_untouched fetch (batches l) initState s hnb
    rintro ⟨h1, _⟩
    rw [h.1] at h1
    simp [initState] at h1
  case pos =>
    have hflat : s ∈ (batches l).flatten := by rw [batches_flatten]; exact hmem
    obtain ⟨b, hb, hsb⟩ := List.mem_flatten.mp hflat
    obtain ⟨l1, l2, hsplit⟩ := List.append_of_mem hb
    have hpw : (l1 ++ b :: l2).Pairwise List.Disjoint := by
      rw [← hsplit]
      exact (List.nodup_flatten.mp (by rw [batches_flatten]; exact hnd)).2
    obtain ⟨-, hpw2, hcross⟩ := List.pairwise_append.mp hpw
    have hl1 : ∀ b' ∈ l1, s ∉ b' := by
      intro b' hb' hs'
      exact hcross b' hb' b (List.mem_cons_self b l2) hs' hsb
    have hl2 : ∀ b' ∈ l2, s ∉ b' := by
      intro b' hb' hs'
      exact (List.pairwise_cons.mp hpw2).1 b' hb' hsb hs'
    rw [hsplit, pac_append]
    have hmid : (processAllCore fetch l1 initState).results s = none
        ∧ s ∉ (processAllCore fetch l1 initState).failed_tokens := by
      have h := pac_untouched fetch l1 initState s hl1
      refine ⟨h.1.trans rfl, fun hc => ?_⟩
      have := h.2.mp hc
      simp [initState] at this
    simp only [processAllCore]
    cases hf : (fetchWithRetries fetch (processAllCore fetch l1 initState).api_calls).1 with
    | none =>
      have hrb : (runBatch fetch (processAllCore fetch l1 initState) b).results s
          = none := by
        rw [rb_fail fetch _ b hf]
        exact hmid.1
      have after := pac_untouched fetch l2
        (runBatch fetch (processAllCore fetch l1 initState) b) s hl2
      rintro ⟨h1, -⟩
      rw [after.1, hrb] at h1
      simp at h1
    | some dm =>
      cases hv : processSymbol dm s with
      | some v =>
        have hfb : s ∉ (runBatch fetch (processAllCore fetch l1 initState) b).failed_tokens := by
          rw [rb_succ_failed fetch _ b dm hf]
          intro hc
          rcases List.mem_append.mp hc with hc1 | hc2
          · exact hmid.2 hc1
          · have := (List.mem_filter.mp hc2).2
            simp [hv] at this
        have after := pac_untouched fetch l2
          (runBatch fetch (processAllCore fetch l1 initState) b) s hl2
        rintro ⟨-, h2⟩
        exact hfb (after.2.mp h2)
      | none =>
        have hrb : (runBatch fetch (processAllCore fetch l1 initState) b).results s
            = none := by
          rw [rb_succ_results_none fetch _ b dm s hf hv]
          exact hmid.1
        have after := pac_untouched fetch l2
          (runBatch fetch (processAllCore fetch l1 initState) b) s hl2
        rintro ⟨h1, -⟩
        rw [after.1, hrb] at h1
        simp at h1

/-! ### Claim theorems -/

/-- C4: for every quote record resolved with a positive price, the score entry
is exactly `0.5·pct24h + 0.3·pct7d + 0.2·volume_ratio`, where `volume_ratio`
is `(volume/market_cap)·100` when `market_cap > 0` and `0` otherwise; a zero
market cap degrades the volume term to `0` instead of erroring, and the
reference inputs (pct24h = 10, pct7d = 5, volume = 1000000,
market_cap = 10000000) score exactly `8.5`. -/
theorem claim4_momentum_formula (dm : QuotePayload) (s : String)
    (p p24 p7 vol mc : ℚ) (rest : List USDQuote)
    (hdm : dm s = some (.entries
      (USDQuote.mk (some p) (some p24) (some p7) (some vol) (some mc) :: rest)))
    (hp : p > 0) :
    processSymbol dm s
      = some (0.5 * p24 + 0.3 * p7
          + 0.2 * (if mc > 0 then vol / mc * 100 else 0), p)
    ∧ momentum_score p24 p7 vol 0 = 0.5 * p24 + 0.3 * p7
    ∧ momentum_score 10 5 1000000 10000000 = 8.5 := by
  refine ⟨?_, ?_, ?_⟩
  · simp [processSymbol, hdm, hp, momentum_score, volume_ratio]
  · simp [momentum_score, volume_ratio]
  · norm_num [momentum_score, volume_ratio]

/-- C4 witness: the reference quote, placed at symbol `AAA` of the concrete
payload, yields the formula value (8.5) with its price 2. -/
theorem claim4_witness :
    processSymbol payloadAAA "AAA"
      = some (0.5 * 10 + 0.3 * 5
          + 0.2 * (if (10000000 : ℚ) > 0 then 1000000 / 10000000 * 100 else 0), 2)
    ∧ momentum_score 10 5 1000000 10000000 = 8.5 := by
  have h := claim4_momentum_formula payloadAAA "AAA" 2 10 5 1000000 10000000 []
    rfl (by norm_num)
  exact ⟨h.1, h.2.2⟩

/-- C5: the retry loop makes at most 3 attempts per batch, stops at the first
success, sleeps `2^retry` seconds after each unsuccessful non-final attempt
(1 s then 2 s) and never after the last one, and the orchestrator adds one
API call per attempt made; in particular fail-fail-success gives exactly 3
attempts with exactly the sleeps 1 s and 2 s between them. -/
theorem claim5_retry_backoff (fetch : Nat → FetchOutcome) (c : Nat) :
    (fetchWithRetries fetch c).2.1 ≤ 3
    ∧ (∀ d, fetch c = .success d → fetchWithRetries fetch c = (some d, 1, []))
    ∧ (∀ d, fetch c = .failure → fetch (c + 1) = .success d →
        fetchWithRetries fetch c = (some d, 2, [1]))
    ∧ (∀ d, fetch c = .failure → fetch (c + 1) = .failure →
        fetch (c + 2) = .success d → fetchWithRetries fetch c = (some d, 3, [1, 2]))
    ∧ (fetch c = .failure → fetch (c + 1) = .failure → fetch (c + 2) = .failure →
        fetchWithRetries fetch c = (none, 3, [1, 2]))
    ∧ (∀ st b, st.api_calls = c →
        (runBatch fetch st b).api_calls = c + (fetchWithRetries fetch c).2.1) := by
  refine ⟨fwr_attempts_le fetch c, ?_, ?_, ?_, ?_, ?_⟩
  · intro d h
    unfold fetchWithRetries
    rw [h]
  · intro d h1 h2
    unfold fetchWithRetries
    rw [h1, h2]
  · intro d h1 h2 h3
    unfold fetchWithRetries
    rw [h1, h2, h3]
  · intro h1 h2 h3
    unfold fetchWithRetries
    rw [h1, h2, h3]
  · intro st b hc
    subst hc
    exact rb_api_calls fetch st b

/-- C5 witness: a fetcher failing its first two attempts and succeeding on the
third records exactly 3 attempts and the sleeps 1 s, 2 s. -/
theorem claim5_witness :
    fetchWithRetries fetchThirdTry 0 = (some payloadAAA, 3, [1, 2]) :=
  (claim5_retry_backoff fetchThirdTry 0).2.2.2.1 payloadAAA rfl rfl rfl

/-- C6: `get k t` after `set k t v` returns `v` exactly when the elapsed time
`d` is strictly below the TTL (`CACHE_EXPIRY = 3600` s) and `none` once the
TTL is reached, even though the entry itself still exists in the `data_type`
table; a missing timestamp likewise yields a plain `none` (miss), never an
error. -/
theorem claim6_cache_ttl {V : Type} (c : CryptoCache V) (t0 d : Int)
    (k dt : String) (v : V) :
    ((c.set t0 k dt v).get (t0 + d) k dt
      = if d < CACHE_EXPIRY then some v else none)
    ∧ (∃ m, (c.set t0 k dt v).data dt = some m ∧ m k = some v)
    ∧ (∀ c' : CryptoCache V, ∀ now k',
        c'.timestamp k' = none → c'.get now k' dt = none) := by
  refine ⟨?_, ?_, ?_⟩
  · have harith : t0 + d - t0 = d := by ring
    by_cases hd : d < CACHE_EXPIRY
    · simp [CryptoCache.get, CryptoCache.is_valid, CryptoCache.set, harith, hd]
    · simp [CryptoCache.get, CryptoCache.is_valid, CryptoCache.set, harith, hd]
  · refine ⟨fun k' => if k' = k then some v
        else ((c.data dt).getD (fun _ => none)) k', ?_, ?_⟩
    · simp [CryptoCache.set]
    · simp
  · intro c' now k' h
    simp [CryptoCache.get, CryptoCache.is_valid, h]

/-- C6 witness: on a concrete cache, the round-trip succeeds 5 s after the
`set`, misses exactly at 3600 s, and a never-set key misses. -/
theorem claim6_witness :
    (emptyCache.set 0 "BTC,ETH" "quotes" (42 : Nat)).get (0 + 5) "BTC,ETH" "quotes"
      = some 42
    ∧ (emptyCache.set 0 "BTC,ETH" "quotes" (42 : Nat)).get (0 + 3600) "BTC,ETH"
        "quotes" = none
    ∧ (emptyCache (V := Nat)).get 7 "XRP" "quotes" = none := by
  have h5 := claim6_cache_ttl (V := Nat) emptyCache 0 5 "BTC,ETH" "quotes" 42
  have h36 := claim6_cache_ttl (V := Nat) emptyCache 0 3600 "BTC,ETH" "quotes" 42
  refine ⟨?_, ?_, h5.2.2 emptyCache 7 "XRP" rfl⟩
  · rw [h5.1]
    norm_num [CACHE_EXPIRY]
  · rw [h36.1]
    norm_num [CACHE_EXPIRY]

/-- C9: constructing the cache from an absent or unreadable/corrupt backing
document never raises: both load-failure outcomes produce the empty cache
(empty timestamp mapping and no per-data-type table), on which every `get`
misses, exactly as on a cold cache. -/
theorem claim9_load_failure_cold (V : Type) :
    load_cache (V := V) .absent = emptyCache
    ∧ load_cache (V := V) .failure = emptyCache
    ∧ (emptyCache (V := V)).timestamp = (fun _ => none)
    ∧ (∀ dt, (emptyCache (V := V)).data dt = none)
    ∧ (∀ now k dt, (emptyCache (V := V)).get now k dt = none) := by
  refine ⟨rfl, rfl, rfl, fun _ => rfl, ?_⟩
  intro now k dt
  simp [CryptoCache.get, CryptoCache.is_valid, emptyCache]

/-- C10: cache freshness is keyed on the symbol key alone — `set k t1 v`
stamps the single per-key timestamp, so `get k t2` under a different data type
sees the shared stamp: validity is exactly `now - t0 < TTL` whatever the
previous age of `(k, t2)` was, and within that window the value previously
stored under `(k, t2)` is returned again. -/
theorem claim10_timestamp_shared {V : Type} (c : CryptoCache V)
    (t0 now : Int) (k t1 t2 : String) (v : V) (hne : t2 ≠ t1) :
    ((c.set t0 k t1 v).is_valid now k t2 = decide (now - t0 < CACHE_EXPIRY))
    ∧ (∀ m w, c.data t2 = some m → m k = some w → now - t0 < CACHE_EXPIRY →
        (c.set t0 k t1 v).get now k t2 = some w) := by
  constructor
  · simp [CryptoCache.is_valid, CryptoCache.set]
  · intro m w hm hw hf
    simp [CryptoCache.get, CryptoCache.is_valid, CryptoCache.set, hne, hm, hw, hf]

/-- C10 witness: a value stored under `(K, quotes)` 9000 s ago is stale, yet a
`set` under the different type `other` makes `get K quotes` return it again. -/
theorem claim10_witness :
    ((emptyCache.set (-9000) "K" "quotes" (7 : Nat)).set 0 "K" "other" 7).get 0
        "K" "quotes" = some 7
    ∧ (emptyCache.set (-9000) "K" "quotes" (7 : Nat)).is_valid 0 "K" "quotes"
        = false := by
  constructor
  · exact (claim10_timestamp_shared (emptyCache.set (-9000) "K" "quotes" 7) 0 0
      "K" "other" "quotes" 7 (by decide)).2 _ 7 rfl rfl (by norm_num [CACHE_EXPIRY])
  · decide

/-- C7: `process_all_tickers` errors out exactly when no usable credential is
configured (`os.getenv` returning `None` or the empty string, both falsy at
line 114); in that case the outcome does not depend on the fetcher at all (the
raise precedes any network activity), and otherwise the run completes with an
`ok` result state for every fetcher behavior and ticker list — network
failures, rate limiting, malformed responses and per-symbol data problems
(all expressible through the fetch oracle and payloads) never raise. -/
theorem claim7_credential_precondition (apiKey : Option String)
    (fetch : Nat → FetchOutcome) (tickers : List String) :
    ((∃ msg, process_all_tickers apiKey fetch tickers = .error msg)
      ↔ credential_missing apiKey = true)
    ∧ (credential_missing apiKey = true → ∀ fetch' : Nat → FetchOutcome,
        process_all_tickers apiKey fetch' tickers
          = process_all_tickers apiKey fetch tickers)
    ∧ (credential_missing apiKey = false →
        process_all_tickers apiKey fetch tickers
          = .ok (processAllCore fetch (batches (tickers.map upper)) initState)) := by
  refine ⟨⟨?_, ?_⟩, ?_, ?_⟩
  · rintro ⟨msg, hmsg⟩
    by_contra h
    simp only [Bool.not_eq_true] at h
    simp [process_all_tickers, h] at hmsg
  · intro h
    exact ⟨"No CMC_API_KEY found in environment variables",
      by simp [process_all_tickers, h]⟩
  · intro h fetch'
    simp [process_all_tickers, h]
  · intro h
    simp [process_all_tickers, h]

/-- C7 witness: with the credential absent the error is identical for two
different fetchers (no network dependence), and with a credential present a
run against an always-failing fetcher still completes with an `ok` state. -/
theorem claim7_witness :
    process_all_tickers none fetchAlwaysFail ["BTC"]
      = process_all_tickers none fetchAlwaysOk ["BTC"]
    ∧ process_all_tickers (some "KEY") fetchAlwaysFail ["BTC"]
      = .ok (processAllCore fetchAlwaysFail (batches (["BTC"].map upper)) initState) := by
  constructor
  · exact (claim7_credential_precondition none fetchAlwaysOk ["BTC"]).2.1 rfl
      fetchAlwaysFail
  · exact (claim7_credential_precondition (some "KEY") fetchAlwaysFail
      ["BTC"]).2.2 rfl

/-- C3: within a successfully fetched batch, each symbol is resolved
independently against the payload: a missing entry, an empty or malformed
entry, an absent price or a non-positive price marks the symbol failed, while
a positive price installs its score entry; and a symbol's outcome depends only
on its own payload entry, so one symbol's malformed data (a caught per-symbol
exception) never prevents its siblings in the same batch from being
processed. -/
theorem claim3_per_symbol_resolution (dm : QuotePayload) (batch : List String)
    (st : RunState) (s : String) (hs : s ∈ batch) :
    (processSymbol dm s = none → s ∈ (processSymbols dm batch st).failed_tokens)
    ∧ (dm s = none ∨ dm s = some .malformed ∨ dm s = some (.entries []) →
        processSymbol dm s = none)
    ∧ (∀ q rest, dm s = some (.entries (q :: rest)) →
        (q.price = none → processSymbol dm s = none)
        ∧ (∀ p, q.price = some p → ¬p > 0 → processSymbol dm s = none)
        ∧ (∀ p, q.price = some p → p > 0 →
            (processSymbols dm batch st).results s
              = some (momentum_score (q.percent_change_24h.getD 0)
                  (q.percent_change_7d.getD 0) (q.volume_24h.getD 0)
                  (q.market_cap.getD 0), p)))
    ∧ (∀ dm' : QuotePayload, dm' s = dm s →
        (processSymbols dm' batch st).results s
            = (processSymbols dm batch st).results s
        ∧ (s ∈ (processSymbols dm' batch st).failed_tokens
            ↔ s ∈ (processSymbols dm batch st).failed_tokens)) := by
  refine ⟨?_, ?_, ?_, ?_⟩
  · intro h
    rw [ps_failed]
    exact List.mem_append_right _ (List.mem_filter.mpr ⟨hs, by simp [h]⟩)
  · rintro (h | h | h) <;> simp [processSymbol, h]
  · intro q rest hdm
    refine ⟨?_, ?_, ?_⟩
    · intro hp
      simp [processSymbol, hdm, hp]
    · intro p hp hpos
      simp [processSymbol, hdm, hp, hpos]
    · intro p hp hpos
      refine ps_results_some dm batch st s _ hs ?_
      simp [processSymbol, hdm, hp, hpos]
  · intro dm' hagree
    have hps : processSymbol dm' s = processSymbol dm s :=
      processSymbol_congr dm dm' s hagree
    constructor
    · cases hval : processSymbol dm s with
      | some v =>
        rw [ps_results_some dm batch st s v hs hval,
          ps_results_some dm' batch st s v hs (hps.trans hval)]
      | none =>
        rw [ps_results_none dm batch st s hval,
          ps_results_none dm' batch st s (hps.trans hval)]
    · rw [ps_failed, ps_failed]
      simp only [List.mem_append, List.mem_filter, hps]

/-- C3 witness: against the concrete payload, the sibling `BBB` (missing from
the payload) is failed while `AAA` gets its score entry, in the same batch. -/
theorem claim3_witness :
    "BBB" ∈ (processSymbols payloadAAA ["AAA", "BBB"] initState).failed_tokens
    ∧ (processSymbols payloadAAA ["AAA", "BBB"] initState).results "AAA"
        = some (momentum_score 10 5 1000000 10000000, 2) := by
  constructor
  · exact (claim3_per_symbol_resolution payloadAAA ["AAA", "BBB"] initState "BBB"
      (by decide)).1 rfl
  · exact ((claim3_per_symbol_resolution payloadAAA ["AAA", "BBB"] initState "AAA"
      (by decide)).2.2.1
        (USDQuote.mk (some 2) (some 10) (some 5) (some 1000000) (some 10000000))
        [] rfl).2.2 2 rfl (by norm_num)

/-- C1 counterexample: with a fetcher that fails every attempt, the batch
`["AAA", "BBB"]` ends the run with an EMPTY failed list (and no scores): the
code merely prints and `continue`s at line 144 without recording the batch's
symbols, so the claim's `failed ⊇ {AAA, BBB}` is false. -/
theorem claim1_counterexample :
    process_all_tickers (some "KEY") fetchAlwaysFail ["AAA", "BBB"]
      = .ok { results := fun _ => none, failed_tokens := [], api_calls := 3,
              sleeps := [1, 2] }
    ∧ "AAA" ∉ (processAllCore fetchAlwaysFail (batches ["AAA", "BBB"])
        initState).failed_tokens := by
  exact ⟨rfl, by decide⟩

/-- C1 amended: a batch whose fetch fails on all 3 attempts contributes
nothing to the scores mapping and ALSO nothing to the failed list (its symbols
are not recorded anywhere, contrary to the original claim), and processing
continues with the remaining batches rather than aborting the run. -/
theorem claim1_failed_batch_skipped (fetch : Nat → FetchOutcome)
    (st : RunState) (b : List String) (bs : List (List String))
    (h : (fetchWithRetries fetch st.api_calls).1 = none) :
    (runBatch fetch st b).results = st.results
    ∧ (runBatch fetch st b).failed_tokens = st.failed_tokens
    ∧ processAllCore fetch (b :: bs) st
        = processAllCore fetch bs (runBatch fetch st b) := by
  refine ⟨?_, ?_, rfl⟩
  · rw [rb_fail fetch st b h]
  · rw [rb_fail fetch st b h]

/-- C1 witness: the amended statement at the concrete all-failing run. -/
theorem claim1_witness :
    (runBatch fetchAlwaysFail initState ["AAA", "BBB"]).failed_tokens = []
    ∧ (runBatch fetchAlwaysFail initState ["AAA", "BBB"]).results = initState.results := by
  have h := claim1_failed_batch_skipped fetchAlwaysFail initState ["AAA", "BBB"]
    [] rfl
  exact ⟨h.2.1, h.1⟩

/-- C8 counterexample: a run whose single batch exhausts its retries performs
only the two backoff sleeps and NO 100 ms pause — `continue` at line 144 skips
the `asyncio.sleep(0.1)` of line 178, so the claim's "after every batch,
whether it succeeded or failed" is false. -/
theorem claim8_counterexample :
    (processAllCore fetchAlwaysFail (batches ["AAA"]) initState).sleeps = [1, 2]
    ∧ (1 : ℚ)/10 ∉ (processAllCore fetchAlwaysFail (batches ["AAA"])
        initState).sleeps := by
  constructor
  · rfl
  · rw [show (processAllCore fetchAlwaysFail (batches ["AAA"]) initState).sleeps
        = [1, 2] from rfl]
    norm_num [List.mem_cons]

/-- C8 amended: the 100 ms pause follows every successfully fetched batch and
is separate from the retry backoff sleeps (which are never 0.1 s); after a
batch that exhausts its retries the orchestrator skips the pause and proceeds
directly to the next batch. -/
theorem claim8_pause_after_success (fetch : Nat → FetchOutcome)
    (st : RunState) (b : List String) :
    (∀ dm, (fetchWithRetries fetch st.api_calls).1 = some dm →
      (runBatch fetch st b).sleeps
          = st.sleeps ++ (fetchWithRetries fetch st.api_calls).2.2 ++ [(1 : ℚ)/10]
      ∧ (1 : ℚ)/10 ∉ (fetchWithRetries fetch st.api_calls).2.2)
    ∧ ((fetchWithRetries fetch st.api_calls).1 = none →
      (runBatch fetch st b).sleeps = st.sleeps ++ [1, 2]
      ∧ (1 : ℚ)/10 ∉ ([1, 2] : List ℚ)) := by
  constructor
  · intro dm h
    exact ⟨rb_sleeps_succ fetch st b dm h, tenth_not_backoff fetch st.api_calls⟩
  · intro h
    rw [rb_fail fetch st b h]
    refine ⟨rfl, ?_⟩
    norm_num [List.mem_cons]

/-- C8 witness: the amended statement at a concrete successful batch and a
concrete exhausted batch. -/
theorem claim8_witness :
    (runBatch fetchAlwaysOk initState ["AAA"]).sleeps = [] ++ [] ++ [(1 : ℚ)/10]
    ∧ (runBatch fetchAlwaysFail initState ["AAA"]).sleeps = [] ++ [1, 2] := by
  constructor
  · exact ((claim8_pause_after_success fetchAlwaysOk initState ["AAA"]).1
      payloadAAA rfl).1
  · exact ((claim8_pause_after_success fetchAlwaysFail initState ["AAA"]).2 rfl).1

/-- C2 counterexample: the symbol `AAA`, attempted in a batch that fails all
its retries, ends the run in NEITHER the scores mapping nor the failed list,
falsifying the claimed exactly-one partition. -/
theorem claim2_counterexample :
    (processAllCore fetchAlwaysFail (batches ["AAA"]) initState).results "AAA"
      = none
    ∧ "AAA" ∉ (processAllCore fetchAlwaysFail (batches ["AAA"])
        initState).failed_tokens := by
  exact ⟨rfl, by decide⟩

/-- C2 amended: after processing the normalized batches, (i) every symbol of a
batch whose fetch succeeded ends in the scores mapping or in the failed list;
(ii) a symbol all of whose containing batches exhausted their retries ends in
neither (contrary to the original claim); (iii) when the normalized ticker
list has no duplicates, no symbol ever ends in both. -/
theorem claim2_partition (fetch : Nat → FetchOutcome) (tickers : List String)
    (s : String) :
    (∀ pre b suf, batches (tickers.map upper) = pre ++ b :: suf → s ∈ b →
      ((fetchWithRetries fetch
          (processAllCore fetch pre initState).api_calls).1.isSome) →
      (((processAllCore fetch (batches (tickers.map upper))
            initState).results s).isSome
        ∨ s ∈ (processAllCore fetch (batches (tickers.map upper))
            initState).failed_tokens))
    ∧ ((∀ pre b suf, batches (tickers.map upper) = pre ++ b :: suf → s ∈ b →
          (fetchWithRetries fetch
            (processAllCore fetch pre initState).api_calls).1 = none) →
        (processAllCore fetch (batches (tickers.map upper)) initState).results s
            = none
        ∧ s ∉ (processAllCore fetch (batches (tickers.map upper))
            initState).failed_tokens)
    ∧ ((tickers.map upper).Nodup →
        ¬ (((processAllCore fetch (batches (tickers.map upper))
              initState).results s).isSome
            ∧ s ∈ (processAllCore fetch (batches (tickers.map upper))
              initState).failed_tokens)) := by
  refine ⟨?_, ?_, ?_⟩
  · intro pre b suf hsplit hs hok
    rw [hsplit]
    exact pac_success_batch_covered fetch pre b suf initState s hs hok
  · intro hfail
    exact pac_all_fail_neither fetch s (batches (tickers.map upper)) initState
      rfl (by simp [initState]) hfail
  · intro hnd
    exact pac_nodup_not_both fetch (tickers.map upper) s hnd

/-- C2 witness: the amended statement at a concrete run — the single symbol of
a successfully fetched batch ends in scores or failed. -/
theorem claim2_witness :
    ((processAllCore fetchAlwaysOk (batches (["aaa"].map upper))
        initState).results "AAA").isSome
    ∨ "AAA" ∈ (processAllCore fetchAlwaysOk (batches (["aaa"].map upper))
        initState).failed_tokens :=
  (claim2_partition fetchAlwaysOk ["aaa"] "AAA").1 [] ["AAA"] [] rfl
    (by decide) rfl

end FinBot
